import Mathlib

/-!
# Non-secure `main_ns.c` of the FreeRTOS nRF9160 demo

A shallow embedding of `src/nonsecure/main_ns.c`:

* the MPU region boundary symbols (`__privileged_functions_start__` ...),
* `InitializeUserMemorySections` (a `memcpy` of the privileged data section),
* `vApplicationGetIdleTaskMemory` / `vApplicationGetTimerTaskMemory`,
* the naked `MemManage_Handler` entry sequence,
* `vHandleMemoryFault`, which skips the faulting Thumb instruction.

The target is a 32-bit little-endian Cortex-M33.  Memory is one byte-addressed
store; addresses are reduced modulo `2 ^ 32` at every access and `uint32_t` /
`uint16_t` arithmetic is reduced modulo `2 ^ 32` / `2 ^ 16` explicitly.
-/

namespace MainNs

/-! ## Machine model -/

/-- Number of addresses of the 32-bit address space, and modulus of `uint32_t`. -/
def W32 : Nat := 4294967296

/-- Byte-addressed memory.  Only the cells below `W32` are ever accessed and a
cell is read as a byte (modulo 256). -/
abbrev Memory := Nat → Nat

/-- Read the byte at address `a`. -/
def load8 (m : Memory) (a : Nat) : Nat := m (a % W32) % 256

/-- Write the byte `v` at address `a`. -/
def store8 (m : Memory) (a v : Nat) : Memory :=
  fun x => if x = a % W32 then v % 256 else m x

/-- Read a little-endian `uint16_t` at address `a`. -/
def load16 (m : Memory) (a : Nat) : Nat :=
  load8 m a + 256 * load8 m (a + 1)

/-- Read a little-endian `uint32_t` at address `a`. -/
def load32 (m : Memory) (a : Nat) : Nat :=
  load8 m a + 256 * load8 m (a + 1) + 65536 * load8 m (a + 2) + 16777216 * load8 m (a + 3)

/-- Write a little-endian `uint32_t` at address `a`. -/
def store32 (m : Memory) (a v : Nat) : Memory :=
  store8 (store8 (store8 (store8 m a v) (a + 1) (v / 256)) (a + 2) (v / 65536))
    (a + 3) (v / 16777216)

/-! ## `vHandleMemoryFault` (lines 220-266) -/

/-- The body of `vHandleMemoryFault` (kept in the source under `#if 0`):
`pulFaultStackAddress` is the address of the stacked exception frame, a
`uint32_t *`, so `pulFaultStackAddress[ 6 ]` is the word at byte offset `4 * 6`
of the same memory the offending instruction is read from. -/
def vHandleMemoryFault (m : Memory) (pulFaultStackAddress : Nat) : Memory :=
  -- ulPC = pulFaultStackAddress[ 6 ];
  let ulPC := load32 m (pulFaultStackAddress + 4 * 6)
  -- usOffendingInstruction = *( uint16_t * ) ulPC;
  let usOffendingInstruction := load16 m ulPC
  -- usOffendingInstruction = usOffendingInstruction & 0xF800;
  let usOffendingInstruction := (usOffendingInstruction &&& 0xF800) % 65536
  -- usOffendingInstruction = ( usOffendingInstruction >> 11 );
  let usOffendingInstruction := (usOffendingInstruction >>> 11) % 65536
  let ulPC :=
    if usOffendingInstruction = 0x001F ∨ usOffendingInstruction = 0x001E ∨
        usOffendingInstruction = 0x001D then
      -- ulPC += 4;
      (ulPC + 4) % W32
    else
      -- ulPC += 2;
      (ulPC + 2) % W32
  -- pulFaultStackAddress[ 6 ] = ulPC;
  store32 m (pulFaultStackAddress + 4 * 6) ulPC

/-- The stacked program counter: word 6 of the exception frame at `sp`. -/
def stackedPC (m : Memory) (sp : Nat) : Nat := load32 m (sp + 4 * 6)

/-- What one call of `vHandleMemoryFault` adds to the stacked program counter,
as a `uint32_t` difference. -/
def pcAdvance (m : Memory) (sp : Nat) : Nat :=
  (stackedPC (vHandleMemoryFault m sp) sp + W32 - stackedPC m sp) % W32

/-- Bits `[15:11]` of a halfword. -/
def bits15_11 (h : Nat) : Nat := h / 2 ^ 11 % 2 ^ 5

/-- The ARM rule quoted in the source: a halfword whose bits `[15:11]` are
`0b11101`, `0b11110` or `0b11111` is the first half of a 32-bit instruction. -/
def isWidePrefix (h : Nat) : Prop :=
  bits15_11 h = 0b11101 ∨ bits15_11 h = 0b11110 ∨ bits15_11 h = 0b11111

instance (h : Nat) : Decidable (isWidePrefix h) := by
  unfold isWidePrefix; infer_instance

/-- The instruction width in bytes that the ARM rule assigns to a halfword. -/
def widthOf (h : Nat) : Nat := if isWidePrefix h then 4 else 2

/-- The four byte addresses occupied by word 6 of the frame at `sp`. -/
def inSlot6 (sp x : Nat) : Prop :=
  x = (sp + 24) % W32 ∨ x = (sp + 25) % W32 ∨ x = (sp + 26) % W32 ∨ x = (sp + 27) % W32

instance (sp x : Nat) : Decidable (inSlot6 sp x) := by
  unfold inSlot6; infer_instance

/-- The halfword at address `a` has no byte in word 6 of the frame at `sp`. -/
def halfwordOutsideSlot6 (sp a : Nat) : Prop :=
  ¬ inSlot6 sp (a % W32) ∧ ¬ inSlot6 sp ((a + 1) % W32)

instance (sp a : Nat) : Decidable (halfwordOutsideSlot6 sp a) := by
  unfold halfwordOutsideSlot6; infer_instance

/-- Word `i` of the exception frame at `sp` (`pulFaultStackAddress[ i ]`). -/
def frameWord (m : Memory) (sp i : Nat) : Nat := load32 m (sp + 4 * i)

/-- A frame at `0x20000000` whose stacked program counter is the address of
its own slot 6, `0x20000018`; every other byte of memory is zero. -/
def selfPointingFrame : Memory := store32 (fun _ => 0) 0x20000018 0x20000018

/-- A frame at `0x2000E7E8` (slot 6 at `0x2000E800`) whose stacked program
counter is `0x2000E7FE`, two bytes below slot 6; every other byte is zero. -/
def frameBelowSlot : Memory := store32 (fun _ => 0) 0x2000E800 0x2000E7FE

/-! ## Region boundary table (lines 47-63)

The `extern` linker symbols are parameters: `raw_start` / `raw_end` stand for
the addresses of `__X_segment_start__` / `__X_segment_end__`. -/

/-- `__privileged_functions_start__ = __PRIVILEGED_FLASH_NS_segment_start__;` -/
def __privileged_functions_start__ (raw_start : Nat) : Nat := raw_start

/-- `( uint32_t * )( ( uint32_t )__PRIVILEGED_FLASH_NS_segment_end__ - ( uint32_t ) 1 )` -/
def __privileged_functions_end__ (raw_end : Nat) : Nat := (raw_end % W32 + W32 - 1) % W32

/-- `__syscalls_flash_start__ = __SYSCALLS_FLASH_NS_segment_start__;` -/
def __syscalls_flash_start__ (raw_start : Nat) : Nat := raw_start

/-- `( uint32_t * )( ( uint32_t )__SYSCALLS_FLASH_NS_segment_end__ - ( uint32_t ) 1 )` -/
def __syscalls_flash_end__ (raw_end : Nat) : Nat := (raw_end % W32 + W32 - 1) % W32

/-- `__unprivileged_flash_start__ = __UNPRIVILEGED_FLASH_NS_segment_start__;` -/
def __unprivileged_flash_start__ (raw_start : Nat) : Nat := raw_start

/-- `( uint32_t * )( ( uint32_t )__UNPRIVILEGED_FLASH_NS_segment_end__ - ( uint32_t ) 1 )` -/
def __unprivileged_flash_end__ (raw_end : Nat) : Nat := (raw_end % W32 + W32 - 1) % W32

/-- `__privileged_sram_start__ = __PRIVILEGED_RAM_NS_segment_start__;` -/
def __privileged_sram_start__ (raw_start : Nat) : Nat := raw_start

/-- `( uint32_t * )( ( uint32_t )__PRIVILEGED_RAM_NS_segment_end__ - ( uint32_t ) 1 )` -/
def __privileged_sram_end__ (raw_end : Nat) : Nat := (raw_end % W32 + W32 - 1) % W32

/-- What the specification asks of one published descriptor: `start` is the
raw start symbol, `end_` is `raw_end - 1` in `uint32_t` arithmetic, and, when
`raw_end >= 1`, the closed range `[start, end_]` is the half-open range
`[raw_start, raw_end)`. -/
def InclusiveBounds (start end_ raw_start raw_end : Nat) : Prop :=
  start = raw_start ∧
  (end_ : Int) = ((raw_end : Int) - 1) % 4294967296 ∧
  (1 ≤ raw_end → ∀ a : Nat, (start ≤ a ∧ a ≤ end_) ↔ (raw_start ≤ a ∧ a < raw_end))

/-! ## `InitializeUserMemorySections` (lines 128-137) -/

/-- The C library `memcpy( dst, src, n )`: `n` bytes are copied one at a time
from `src` upwards to `dst` upwards. -/
def memcpy : Memory → Nat → Nat → Nat → Memory
  | m, _, _, 0 => m
  | m, dst, src, n + 1 => memcpy (store8 m dst (load8 m src)) (dst + 1) (src + 1) n

/-- The byte count passed to `memcpy`: the pointer difference
`__privileged_data_end__ - __privileged_data_start__` converted to `size_t`. -/
def privilegedDataSize (__privileged_data_start__ __privileged_data_end__ : Nat) : Nat :=
  Int.toNat (((__privileged_data_end__ : Int) - (__privileged_data_start__ : Int)) % 4294967296)

/-- The body of `InitializeUserMemorySections`; the three `extern` linker
symbols are parameters. -/
def InitializeUserMemorySections (m : Memory)
    (__privileged_data_load_start__ __privileged_data_start__ __privileged_data_end__ : Nat) :
    Memory :=
  memcpy m __privileged_data_start__ __privileged_data_load_start__
    (privilegedDataSize __privileged_data_start__ __privileged_data_end__)

/-- No address belongs both to the `n` bytes from `a` and to the `k` bytes
from `b`. -/
def rangesDisjoint (a n b k : Nat) : Prop :=
  ∀ i, i < n → ∀ j, j < k → (a + i) % W32 ≠ (b + j) % W32

instance (a n b k : Nat) : Decidable (rangesDisjoint a n b k) := by
  unfold rangesDisjoint; infer_instance

/-- A memory holding the bytes `1, 2, 3` at `0x1000 .. 0x1002` and zero
elsewhere. -/
def sampleFlash : Memory := fun x =>
  if x = 0x1000 then 1 else if x = 0x1001 then 2 else if x = 0x1002 then 3 else 0

/-! ## Static memory hooks (lines 151-199) -/

/-- The `FreeRTOSConfig.h` constants used by the hooks; the header is not part
of the source file, so they are parameters. -/
structure FreeRTOSConfig where
  configMINIMAL_STACK_SIZE : Nat
  configTIMER_TASK_STACK_DEPTH : Nat

/-- The objects with static storage duration declared inside the two hooks. -/
inductive StaticObject where
  | xIdleTaskTCB
  | uxIdleTaskStack
  | xTimerTaskTCB
  | uxTimerTaskStack
  deriving DecidableEq, Repr

/-- Declared element count of the `StackType_t` arrays (`none` for the two
`StaticTask_t` objects, which are not arrays). -/
def stackArrayLength (cfg : FreeRTOSConfig) : StaticObject → Option Nat
  | .uxIdleTaskStack => some cfg.configMINIMAL_STACK_SIZE
  | .uxTimerTaskStack => some cfg.configTIMER_TASK_STACK_DEPTH
  | .xIdleTaskTCB => none
  | .xTimerTaskTCB => none

/-- The caller's three output cells; a cell is `none` until it is written. -/
structure TaskMemoryOut where
  ppxTaskTCBBuffer : Option StaticObject
  ppxTaskStackBuffer : Option StaticObject
  pulTaskStackSize : Option Nat
  deriving DecidableEq, Repr

/-- The body of `vApplicationGetIdleTaskMemory`: three stores through the
output pointers, the last one a `uint32_t`. -/
def vApplicationGetIdleTaskMemory (cfg : FreeRTOSConfig) (out : TaskMemoryOut) :
    TaskMemoryOut :=
  -- *ppxIdleTaskTCBBuffer = &xIdleTaskTCB;
  let out : TaskMemoryOut :=
    ⟨some StaticObject.xIdleTaskTCB, out.ppxTaskStackBuffer, out.pulTaskStackSize⟩
  -- *ppxIdleTaskStackBuffer = uxIdleTaskStack;
  let out : TaskMemoryOut :=
    ⟨out.ppxTaskTCBBuffer, some StaticObject.uxIdleTaskStack, out.pulTaskStackSize⟩
  -- *pulIdleTaskStackSize = configMINIMAL_STACK_SIZE;
  ⟨out.ppxTaskTCBBuffer, out.ppxTaskStackBuffer, some (cfg.configMINIMAL_STACK_SIZE % W32)⟩

/-- The body of `vApplicationGetTimerTaskMemory`. -/
def vApplicationGetTimerTaskMemory (cfg : FreeRTOSConfig) (out : TaskMemoryOut) :
    TaskMemoryOut :=
  -- *ppxTimerTaskTCBBuffer = &xTimerTaskTCB;
  let out : TaskMemoryOut :=
    ⟨some StaticObject.xTimerTaskTCB, out.ppxTaskStackBuffer, out.pulTaskStackSize⟩
  -- *ppxTimerTaskStackBuffer = uxTimerTaskStack;
  let out : TaskMemoryOut :=
    ⟨out.ppxTaskTCBBuffer, some StaticObject.uxTimerTaskStack, out.pulTaskStackSize⟩
  -- *pulTimerTaskStackSize = configTIMER_TASK_STACK_DEPTH;
  ⟨out.ppxTaskTCBBuffer, out.ppxTaskStackBuffer, some (cfg.configTIMER_TASK_STACK_DEPTH % W32)⟩

/-! ## `MemManage_Handler` (lines 202-216) -/

/-- The registers and the flag the entry sequence reads or writes. -/
structure Cpu where
  r0 : Nat
  r1 : Nat
  lr : Nat
  msp : Nat
  psp : Nat
  pc : Nat
  z : Bool
  deriving DecidableEq, Repr

/-- `tst lr, #4`: the Z flag is set exactly when `lr & 4` is zero. -/
def tst_lr_4 (s : Cpu) : Cpu :=
  ⟨s.r0, s.r1, s.lr, s.msp, s.psp, s.pc, decide (s.lr &&& 4 = 0)⟩

/-- `mrseq r0, msp`: the "then" slot of `ite eq`, executed when Z is set. -/
def mrseq_r0_msp (s : Cpu) : Cpu :=
  if s.z then ⟨s.msp, s.r1, s.lr, s.msp, s.psp, s.pc, s.z⟩ else s

/-- `mrsne r0, psp`: the "else" slot of `ite eq`, executed when Z is clear. -/
def mrsne_r0_psp (s : Cpu) : Cpu :=
  if s.z then s else ⟨s.psp, s.r1, s.lr, s.msp, s.psp, s.pc, s.z⟩

/-- `ldr r1, handler_address_const`: the literal word holds the address of
`vHandleMemoryFault`. -/
def ldr_r1_handler_address_const (handler_address_const : Nat) (s : Cpu) : Cpu :=
  ⟨s.r0, handler_address_const, s.lr, s.msp, s.psp, s.pc, s.z⟩

/-- `bx r1`: branch to the address in `r1`. -/
def bx_r1 (s : Cpu) : Cpu :=
  ⟨s.r0, s.r1, s.lr, s.msp, s.psp, s.r1, s.z⟩

/-- The instruction sequence of the naked `MemManage_Handler`, in order. -/
def MemManage_Handler (handler_address_const : Nat) (s : Cpu) : Cpu :=
  bx_r1 (ldr_r1_handler_address_const handler_address_const
    (mrsne_r0_psp (mrseq_r0_msp (tst_lr_4 s))))

/-- Bit 2 of the exception-return value in `lr`. -/
def lrBit2 (lr : Nat) : Nat := lr / 4 % 2

/-! ## Lemmas on the machine model -/

theorem load8_lt (m : Memory) (a : Nat) : load8 m a < 256 := by
  unfold load8; omega

theorem load16_lt (m : Memory) (a : Nat) : load16 m a < 65536 := by
  have h0 := load8_lt m a
  have h1 := load8_lt m (a + 1)
  unfold load16; omega

theorem load32_lt (m : Memory) (a : Nat) : load32 m a < W32 := by
  have h0 := load8_lt m a
  have h1 := load8_lt m (a + 1)
  have h2 := load8_lt m (a + 2)
  have h3 := load8_lt m (a + 3)
  unfold load32 W32; omega

theorem load8_store8_same (m : Memory) (a b v : Nat) (h : b % W32 = a % W32) :
    load8 (store8 m a v) b = v % 256 := by
  simp [load8, store8, h]

theorem load8_store8_ne (m : Memory) (a b v : Nat) (h : b % W32 ≠ a % W32) :
    load8 (store8 m a v) b = load8 m b := by
  simp [load8, store8, h]

/-- A byte outside the four bytes written by `store32` keeps its value. -/
theorem load8_store32_ne (m : Memory) (a b v : Nat)
    (h0 : b % W32 ≠ a % W32) (h1 : b % W32 ≠ (a + 1) % W32)
    (h2 : b % W32 ≠ (a + 2) % W32) (h3 : b % W32 ≠ (a + 3) % W32) :
    load8 (store32 m a v) b = load8 m b := by
  unfold store32
  rw [load8_store8_ne _ _ _ _ h3, load8_store8_ne _ _ _ _ h2, load8_store8_ne _ _ _ _ h1,
    load8_store8_ne _ _ _ _ h0]

/-- A cell outside the four bytes written by `store32` keeps its contents. -/
theorem store32_apply_ne (m : Memory) (a v x : Nat)
    (h0 : x ≠ a % W32) (h1 : x ≠ (a + 1) % W32)
    (h2 : x ≠ (a + 2) % W32) (h3 : x ≠ (a + 3) % W32) :
    store32 m a v x = m x := by
  simp [store32, store8, h0, h1, h2, h3]

/-- Reading back a word just stored gives the stored `uint32_t`. -/
theorem load32_store32 (m : Memory) (a v : Nat) :
    load32 (store32 m a v) a = v % W32 := by
  have e0 : load8 (store32 m a v) a = v % 256 := by
    unfold store32
    rw [load8_store8_ne, load8_store8_ne, load8_store8_ne, load8_store8_same] <;>
      first
        | rfl
        | (unfold W32; omega)
  have e1 : load8 (store32 m a v) (a + 1) = v / 256 % 256 := by
    unfold store32
    rw [load8_store8_ne, load8_store8_ne, load8_store8_same] <;>
      first
        | rfl
        | (unfold W32; omega)
  have e2 : load8 (store32 m a v) (a + 2) = v / 65536 % 256 := by
    unfold store32
    rw [load8_store8_ne, load8_store8_same] <;>
      first
        | rfl
        | (unfold W32; omega)
  have e3 : load8 (store32 m a v) (a + 3) = v / 16777216 % 256 := by
    unfold store32
    rw [load8_store8_same]
    rfl
  unfold load32
  rw [e0, e1, e2, e3]
  unfold W32
  omega

theorem mask_F800_testBit (i : Nat) : (63488 : Nat).testBit (11 + i) = decide (i < 5) := by
  by_cases h : i < 5
  · interval_cases i <;> decide
  · have : (63488 : Nat) < 2 ^ (11 + i) := by
      calc (63488 : Nat) < 2 ^ 16 := by norm_num
        _ ≤ 2 ^ (11 + i) := Nat.pow_le_pow_right (by norm_num) (by omega)
    simp [Nat.testBit_lt_two_pow this, h]

/-- Masking with `0xF800` and shifting right by 11 extracts bits `[15:11]`. -/
theorem and_F800_shift (h : Nat) : (h &&& 0xF800) >>> 11 = h / 2048 % 32 := by
  apply Nat.eq_of_testBit_eq
  intro i
  have e : h / 2048 % 32 = (h >>> 11) % 2 ^ 5 := by simp [Nat.shiftRight_eq_div_pow]
  rw [e, Nat.testBit_shiftRight, Nat.testBit_and, Nat.testBit_mod_two_pow,
    Nat.testBit_shiftRight, mask_F800_testBit, Bool.and_comm]

/-- The two `uint16_t` assignments of lines 242-243 leave bits `[15:11]`. -/
theorem extract_bits (h : Nat) :
    (((h &&& 0xF800) % 65536) >>> 11) % 65536 = bits15_11 h := by
  have hle : h &&& 0xF800 < 65536 :=
    lt_of_le_of_lt Nat.and_le_right (by norm_num)
  rw [Nat.mod_eq_of_lt hle, and_F800_shift]
  unfold bits15_11
  omega

/-- The `if` of lines 247-262 adds the width given by the ARM rule. -/
theorem width_select (h pc : Nat) :
    (if bits15_11 h = 0x001F ∨ bits15_11 h = 0x001E ∨ bits15_11 h = 0x001D then
        (pc + 4) % W32 else (pc + 2) % W32) = (pc + widthOf h) % W32 := by
  unfold widthOf
  by_cases hw : isWidePrefix h
  · have hc : bits15_11 h = 0x001F ∨ bits15_11 h = 0x001E ∨ bits15_11 h = 0x001D := by
      unfold isWidePrefix at hw; omega
    rw [if_pos hc, if_pos hw]
  · have hc : ¬ (bits15_11 h = 0x001F ∨ bits15_11 h = 0x001E ∨ bits15_11 h = 0x001D) := by
      unfold isWidePrefix at hw; omega
    rw [if_neg hc, if_neg hw]

/-- The stacked program counter after one call. -/
theorem stackedPC_vHandleMemoryFault (m : Memory) (sp : Nat) :
    stackedPC (vHandleMemoryFault m sp) sp =
      (stackedPC m sp + widthOf (load16 m (stackedPC m sp))) % W32 := by
  unfold stackedPC vHandleMemoryFault
  simp only []
  rw [load32_store32, extract_bits, width_select, Nat.mod_mod]

theorem widthOf_cases (h : Nat) : widthOf h = 2 ∨ widthOf h = 4 := by
  unfold widthOf
  split
  · exact Or.inr rfl
  · exact Or.inl rfl

/-- One call moves the stacked program counter by the decoded width. -/
theorem pcAdvance_eq (m : Memory) (sp : Nat) :
    pcAdvance m sp = widthOf (load16 m (stackedPC m sp)) := by
  unfold pcAdvance
  rw [stackedPC_vHandleMemoryFault]
  have hpc : stackedPC m sp < W32 := load32_lt m _
  rcases widthOf_cases (load16 m (stackedPC m sp)) with hw | hw <;>
    (rw [hw]; unfold W32 at hpc ⊢; omega)

/-- A cell outside slot 6 is not written by `vHandleMemoryFault`. -/
theorem vHandleMemoryFault_apply_outside (m : Memory) (sp x : Nat) (hx : ¬ inSlot6 sp x) :
    vHandleMemoryFault m sp x = m x := by
  unfold inSlot6 W32 at hx
  unfold vHandleMemoryFault
  apply store32_apply_ne <;> (unfold W32; omega)

/-- A byte outside slot 6 reads the same after `vHandleMemoryFault`. -/
theorem load8_vHandleMemoryFault_outside (m : Memory) (sp a : Nat)
    (ha : ¬ inSlot6 sp (a % W32)) :
    load8 (vHandleMemoryFault m sp) a = load8 m a := by
  unfold load8
  rw [vHandleMemoryFault_apply_outside m sp _ ha]

/-- A halfword with no byte in slot 6 reads the same after the call. -/
theorem load16_vHandleMemoryFault_outside (m : Memory) (sp a : Nat)
    (ha : halfwordOutsideSlot6 sp a) :
    load16 (vHandleMemoryFault m sp) a = load16 m a := by
  unfold load16
  rw [load8_vHandleMemoryFault_outside m sp a ha.1,
    load8_vHandleMemoryFault_outside m sp (a + 1) ha.2]

/-- The frame words other than word 6 read the same after the call. -/
theorem frameWord_vHandleMemoryFault (m : Memory) (sp i : Nat) (hi : i < 2 ^ 30)
    (h6 : i ≠ 6) : frameWord (vHandleMemoryFault m sp) sp i = frameWord m sp i := by
  have hi2 : i < 1073741824 := by simpa using hi
  unfold frameWord load32
  rw [load8_vHandleMemoryFault_outside, load8_vHandleMemoryFault_outside,
    load8_vHandleMemoryFault_outside, load8_vHandleMemoryFault_outside] <;>
    (unfold inSlot6 W32; omega)

/-! ## The claims on `vHandleMemoryFault` -/

/-- C1: for each of the 65536 halfwords `h` read at the faulting program
counter, `vHandleMemoryFault` adds 4 to the program counter when bits `[15:11]`
of `h` are `0b11101`, `0b11110` or `0b11111` and 2 otherwise; the advance is in
`{2, 4}` and depends on nothing but that predicate on `h`. -/
theorem vHandleMemoryFault_advance (h : Nat) (hlt : h < 65536) (m : Memory) (sp : Nat)
    (hread : load16 m (stackedPC m sp) = h) :
    pcAdvance m sp =
        (if bits15_11 h = 0b11101 ∨ bits15_11 h = 0b11110 ∨ bits15_11 h = 0b11111
          then 4 else 2) ∧
      (pcAdvance m sp = 2 ∨ pcAdvance m sp = 4) := by
  have _ := hlt
  rw [pcAdvance_eq, hread]
  exact ⟨rfl, widthOf_cases h⟩

/-- Witness for C1: a frame at address 0 whose stacked program counter is
`0x100`, where the halfword `0xF000` (a 32-bit prefix) is stored. -/
theorem vHandleMemoryFault_advance_witness :
    pcAdvance (store8 (store32 (fun _ => 0) 24 0x100) 0x101 0xF0) 0 = 4 :=
  (vHandleMemoryFault_advance 0xF000 (by decide)
    (store8 (store32 (fun _ => 0) 24 0x100) 0x101 0xF0) 0 (by decide)).1

/-- C2: after `vHandleMemoryFault` the word at frame index 6 is
`(pc + w) mod 2^32`, where `pc` is the word read from frame index 6 before the
call and `w`, 2 or 4, is decoded from the halfword memory holds at `pc`. -/
theorem vHandleMemoryFault_writes_back (m : Memory) (sp : Nat) :
    frameWord (vHandleMemoryFault m sp) sp 6 =
        (frameWord m sp 6 + widthOf (load16 m (frameWord m sp 6))) % 2 ^ 32 ∧
      (widthOf (load16 m (frameWord m sp 6)) = 2 ∨
        widthOf (load16 m (frameWord m sp 6)) = 4) :=
  ⟨stackedPC_vHandleMemoryFault m sp, widthOf_cases _⟩

/-- C9, as stated, fails when the resumed address is frame slot 6 itself: for
`frameBelowSlot` the first call stores `0x2000E800`, the address of slot 6, so
the halfword there changes from `0xE7FE` (16-bit pattern) to `0xE800` (32-bit
prefix); the second call stores `0x2000E804`, not the `0x2000E802` computed
from the original memory. -/
theorem vHandleMemoryFault_twice_counterexample :
    stackedPC frameBelowSlot 0x2000E7E8 = 0x2000E7FE ∧
      stackedPC (vHandleMemoryFault frameBelowSlot 0x2000E7E8) 0x2000E7E8 = 0x2000E800 ∧
      load16 frameBelowSlot 0x2000E800 = 0xE7FE ∧
      load16 (vHandleMemoryFault frameBelowSlot 0x2000E7E8) 0x2000E800 = 0xE800 ∧
      stackedPC (vHandleMemoryFault (vHandleMemoryFault frameBelowSlot 0x2000E7E8) 0x2000E7E8)
        0x2000E7E8 = 0x2000E804 ∧
      (0x2000E800 + widthOf (load16 frameBelowSlot 0x2000E800)) % W32 = 0x2000E802 ∧
      stackedPC (vHandleMemoryFault (vHandleMemoryFault frameBelowSlot 0x2000E7E8) 0x2000E7E8)
          0x2000E7E8 ≠
        (stackedPC (vHandleMemoryFault frameBelowSlot 0x2000E7E8) 0x2000E7E8 +
          widthOf (load16 frameBelowSlot
            (stackedPC (vHandleMemoryFault frameBelowSlot 0x2000E7E8) 0x2000E7E8))) % W32 := by
  decide

/-- C9 (amended): one call leaves slot 6 equal to `pc1 = (pc + w(m[pc])) mod 2^32`
with `pc1 ≠ pc`; a second call leaves it equal to `(pc1 + w(h1)) mod 2^32`,
which differs from `pc1`, where `h1` is the halfword at `pc1` in the memory
left by the first call, equal to `m[pc1]` whenever that halfword has no byte
in slot 6; and when the halfword at `pc` is a 32-bit prefix, `pc1` is `pc + 4`. -/
theorem vHandleMemoryFault_twice (m : Memory) (sp : Nat) :
    stackedPC (vHandleMemoryFault m sp) sp =
        (stackedPC m sp + widthOf (load16 m (stackedPC m sp))) % W32 ∧
      stackedPC (vHandleMemoryFault m sp) sp ≠ stackedPC m sp ∧
      stackedPC (vHandleMemoryFault (vHandleMemoryFault m sp) sp) sp =
        (stackedPC (vHandleMemoryFault m sp) sp +
          widthOf (load16 (vHandleMemoryFault m sp)
            (stackedPC (vHandleMemoryFault m sp) sp))) % W32 ∧
      stackedPC (vHandleMemoryFault (vHandleMemoryFault m sp) sp) sp ≠
        stackedPC (vHandleMemoryFault m sp) sp ∧
      (halfwordOutsideSlot6 sp (stackedPC (vHandleMemoryFault m sp) sp) →
        load16 (vHandleMemoryFault m sp) (stackedPC (vHandleMemoryFault m sp) sp) =
          load16 m (stackedPC (vHandleMemoryFault m sp) sp)) ∧
      (isWidePrefix (load16 m (stackedPC m sp)) →
        stackedPC (vHandleMemoryFault m sp) sp = (stackedPC m sp + 4) % W32) := by
  have step : ∀ (m : Memory),
      stackedPC (vHandleMemoryFault m sp) sp ≠ stackedPC m sp := by
    intro m
    rw [stackedPC_vHandleMemoryFault]
    have hpc : stackedPC m sp < W32 := load32_lt m _
    rcases widthOf_cases (load16 m (stackedPC m sp)) with hw | hw <;>
      (rw [hw]; unfold W32 at hpc ⊢; omega)
  refine ⟨stackedPC_vHandleMemoryFault m sp, step m,
    stackedPC_vHandleMemoryFault _ sp, step _, ?_, ?_⟩
  · intro hout
    exact load16_vHandleMemoryFault_outside m sp _ hout
  · intro hw
    rw [stackedPC_vHandleMemoryFault]
    unfold widthOf
    rw [if_pos hw]

/-- C10, as stated, fails when the stacked program counter points at frame
slot 6: for `selfPointingFrame` the decoded halfword is `0x0018` before the
call and `0x001A` after it. -/
theorem vHandleMemoryFault_frame_counterexample :
    stackedPC selfPointingFrame 0x20000000 = 0x20000018 ∧
      load16 selfPointingFrame 0x20000018 = 0x0018 ∧
      load16 (vHandleMemoryFault selfPointingFrame 0x20000000) 0x20000018 = 0x001A ∧
      load16 (vHandleMemoryFault selfPointingFrame 0x20000000)
          (stackedPC selfPointingFrame 0x20000000) ≠
        load16 selfPointingFrame (stackedPC selfPointingFrame 0x20000000) := by
  decide

/-- C10 (amended): `vHandleMemoryFault` leaves every memory cell outside the
four bytes of frame slot 6 unchanged, hence every frame word at an index other
than 6, and the halfword it decoded whenever that halfword has no byte in
slot 6. -/
theorem vHandleMemoryFault_frame (m : Memory) (sp : Nat) :
    (∀ x, ¬ inSlot6 sp x → vHandleMemoryFault m sp x = m x) ∧
      (∀ i, i < 2 ^ 30 → i ≠ 6 →
        frameWord (vHandleMemoryFault m sp) sp i = frameWord m sp i) ∧
      (halfwordOutsideSlot6 sp (stackedPC m sp) →
        load16 (vHandleMemoryFault m sp) (stackedPC m sp) = load16 m (stackedPC m sp)) :=
  ⟨vHandleMemoryFault_apply_outside m sp, frameWord_vHandleMemoryFault m sp,
    load16_vHandleMemoryFault_outside m sp _⟩

/-! ## `InitializeUserMemorySections` -/

/-- Contents of memory after `memcpy`, when the destination lies inside the
address space and shares no address with the source. -/
theorem memcpy_apply (n : Nat) : ∀ (m : Memory) (dst src : Nat), dst + n ≤ W32 →
    rangesDisjoint src n dst n → ∀ x,
      memcpy m dst src n x =
        if dst ≤ x ∧ x < dst + n then load8 m (src + (x - dst)) else m x := by
  induction n with
  | zero =>
    intro m dst src _ _ x
    have hx : ¬ (dst ≤ x ∧ x < dst + 0) := by omega
    rw [if_neg hx]
    rfl
  | succ n ih =>
    intro m dst src hfit hdis x
    have hdis2 : rangesDisjoint (src + 1) n (dst + 1) n := by
      intro i hi j hj
      have h := hdis (i + 1) (by omega) (j + 1) (by omega)
      rwa [show src + (i + 1) = src + 1 + i by omega,
        show dst + (j + 1) = dst + 1 + j by omega] at h
    have hstep : memcpy m dst src (n + 1) =
        memcpy (store8 m dst (load8 m src)) (dst + 1) (src + 1) n := rfl
    have hdst : dst % W32 = dst := Nat.mod_eq_of_lt (by omega)
    rw [hstep, ih _ _ _ (by omega) hdis2]
    by_cases hx : dst + 1 ≤ x ∧ x < dst + 1 + n
    · have hx2 : dst ≤ x ∧ x < dst + (n + 1) := by omega
      rw [if_pos hx, if_pos hx2]
      have hne : (src + 1 + (x - (dst + 1))) % W32 ≠ dst % W32 := by
        have h := hdis (x - dst) (by omega) 0 (by omega)
        rwa [show src + (x - dst) = src + 1 + (x - (dst + 1)) by omega, Nat.add_zero] at h
      rw [load8_store8_ne _ _ _ _ hne,
        show src + 1 + (x - (dst + 1)) = src + (x - dst) by omega]
    · rw [if_neg hx]
      by_cases hxd : x = dst
      · subst hxd
        have hx2 : x ≤ x ∧ x < x + (n + 1) := by omega
        have hb := load8_lt m src
        rw [if_pos hx2, Nat.sub_self, Nat.add_zero]
        simp only [store8, hdst, if_true]
        omega
      · have hx2 : ¬ (dst ≤ x ∧ x < dst + (n + 1)) := by omega
        rw [if_neg hx2]
        simp only [store8, hdst, hxd, if_false]

/-- The source bytes read the same after `memcpy` to a disjoint destination. -/
theorem load8_memcpy_src (m : Memory) (dst src n k : Nat) (hfit : dst + n ≤ W32)
    (hdis : rangesDisjoint src n dst n) (hk : k < n) :
    load8 (memcpy m dst src n) (src + k) = load8 m (src + k) := by
  unfold load8
  rw [memcpy_apply n m dst src hfit hdis]
  have hout : ¬ (dst ≤ (src + k) % W32 ∧ (src + k) % W32 < dst + n) := by
    intro hin
    have h := hdis k hk ((src + k) % W32 - dst) (by omega)
    have e : dst + ((src + k) % W32 - dst) = (src + k) % W32 := by omega
    rw [e, Nat.mod_mod] at h
    exact h rfl
  rw [if_neg hout]

/-- With `start <= end` below `2^32` the byte count is `end - start`. -/
theorem privilegedDataSize_eq (s e : Nat) (hle : s ≤ e) (hend : e < W32) :
    privilegedDataSize s e = e - s := by
  unfold privilegedDataSize
  unfold W32 at hend
  have h : ((e : Int) - (s : Int)) % 4294967296 = ((e - s : Nat) : Int) := by omega
  rw [h, Int.toNat_ofNat]

/-- C3: with `exec_start <= exec_end` and the load range sharing no address
with the execution range, after `InitializeUserMemorySections` every byte
`exec_start + i`, `i < n = exec_end - exec_start`, equals the byte that was at
`load_start + i` before the call; when `n = 0` memory is unchanged. -/
theorem InitializeUserMemorySections_copies (m : Memory)
    (load_start exec_start exec_end : Nat)
    (hle : exec_start ≤ exec_end) (hend : exec_end < W32)
    (hdis : rangesDisjoint load_start (exec_end - exec_start)
      exec_start (exec_end - exec_start)) :
    (∀ i, i < exec_end - exec_start →
        load8 (InitializeUserMemorySections m load_start exec_start exec_end)
          (exec_start + i) = load8 m (load_start + i)) ∧
      (exec_end - exec_start = 0 →
        InitializeUserMemorySections m load_start exec_start exec_end = m) := by
  unfold InitializeUserMemorySections
  rw [privilegedDataSize_eq _ _ hle hend]
  constructor
  · intro i hi
    have hb := load8_lt m (load_start + i)
    have hmod : (exec_start + i) % W32 = exec_start + i := Nat.mod_eq_of_lt (by omega)
    have hin : exec_start ≤ exec_start + i ∧
        exec_start + i < exec_start + (exec_end - exec_start) := by omega
    show memcpy m exec_start load_start (exec_end - exec_start) ((exec_start + i) % W32) % 256 = _
    rw [hmod, memcpy_apply _ m exec_start load_start (by omega) hdis, if_pos hin,
      Nat.add_sub_cancel_left]
    omega
  · intro h0
    rw [h0]
    rfl

/-- Witness for C3: three bytes copied from `0x1000` to `0x2000`. -/
theorem InitializeUserMemorySections_copies_witness :
    rangesDisjoint 0x1000 (0x2003 - 0x2000) 0x2000 (0x2003 - 0x2000) ∧
      load8 (InitializeUserMemorySections sampleFlash 0x1000 0x2000 0x2003) (0x2000 + 2) =
        load8 sampleFlash (0x1000 + 2) :=
  ⟨by decide, (InitializeUserMemorySections_copies sampleFlash 0x1000 0x2000 0x2003
    (by decide) (by decide) (by decide)).1 2 (by decide)⟩

/-- C8: with `exec_start <= exec_end` and the load range sharing no address
with the execution range, running `InitializeUserMemorySections` twice in a
row leaves the same memory as running it once. -/
theorem InitializeUserMemorySections_twice (m : Memory)
    (load_start exec_start exec_end : Nat)
    (hle : exec_start ≤ exec_end) (hend : exec_end < W32)
    (hdis : rangesDisjoint load_start (exec_end - exec_start)
      exec_start (exec_end - exec_start)) :
    InitializeUserMemorySections
        (InitializeUserMemorySections m load_start exec_start exec_end)
        load_start exec_start exec_end =
      InitializeUserMemorySections m load_start exec_start exec_end := by
  unfold InitializeUserMemorySections
  rw [privilegedDataSize_eq _ _ hle hend]
  have hfit : exec_start + (exec_end - exec_start) ≤ W32 := by omega
  funext x
  rw [memcpy_apply _ _ exec_start load_start hfit hdis,
    memcpy_apply _ m exec_start load_start hfit hdis]
  by_cases hx : exec_start ≤ x ∧ x < exec_start + (exec_end - exec_start)
  · rw [if_pos hx, if_pos hx, load8_memcpy_src m _ _ _ _ hfit hdis (by omega)]
  · rw [if_neg hx, if_neg hx]

/-- Witness for C8: the three-byte copy from `0x1000` to `0x2000`, repeated. -/
theorem InitializeUserMemorySections_twice_witness :
    InitializeUserMemorySections
        (InitializeUserMemorySections sampleFlash 0x1000 0x2000 0x2003)
        0x1000 0x2000 0x2003 =
      InitializeUserMemorySections sampleFlash 0x1000 0x2000 0x2003 :=
  InitializeUserMemorySections_twice sampleFlash 0x1000 0x2000 0x2003
    (by decide) (by decide) (by decide)

/-! ## Region boundary table -/

/-- The `uint32_t` expression `raw_end - 1` meets `InclusiveBounds`. -/
theorem inclusiveBounds_of_end (raw_start raw_end : Nat) (hend : raw_end < W32) :
    InclusiveBounds raw_start ((raw_end % W32 + W32 - 1) % W32) raw_start raw_end := by
  unfold W32 at hend
  unfold InclusiveBounds W32
  refine ⟨rfl, ?_, ?_⟩
  · omega
  · intro h1 a
    omega

/-- When `start <= end` holds for the `uint32_t` expression `raw_end - 1`. -/
theorem start_le_end_iff (raw_start raw_end : Nat) (hle : raw_start ≤ raw_end)
    (hend : raw_end < W32) :
    raw_start ≤ (raw_end % W32 + W32 - 1) % W32 ↔ (raw_start < raw_end ∨ raw_end = 0) := by
  unfold W32 at hend ⊢
  omega

/-- C4: for each of the four regions the published start is `raw_start` and
the published end is `(raw_end - 1) mod 2^32`, the inclusive last address:
when `raw_end >= 1`, `start <= a <= end` holds exactly when
`raw_start <= a < raw_end`. -/
theorem region_bounds_inclusive (raw_start raw_end : Nat) (hend : raw_end < W32) :
    InclusiveBounds (__privileged_functions_start__ raw_start)
        (__privileged_functions_end__ raw_end) raw_start raw_end ∧
      InclusiveBounds (__syscalls_flash_start__ raw_start)
        (__syscalls_flash_end__ raw_end) raw_start raw_end ∧
      InclusiveBounds (__unprivileged_flash_start__ raw_start)
        (__unprivileged_flash_end__ raw_end) raw_start raw_end ∧
      InclusiveBounds (__privileged_sram_start__ raw_start)
        (__privileged_sram_end__ raw_end) raw_start raw_end :=
  ⟨inclusiveBounds_of_end raw_start raw_end hend, inclusiveBounds_of_end raw_start raw_end hend,
    inclusiveBounds_of_end raw_start raw_end hend, inclusiveBounds_of_end raw_start raw_end hend⟩

/-- Witness for C4: privileged SRAM from `0x20000000` up to, not including,
`0x20008000`; the published end is `0x20007FFF`. -/
theorem region_bounds_inclusive_witness :
    __privileged_sram_end__ 0x20008000 = 0x20007FFF ∧
      InclusiveBounds (__privileged_sram_start__ 0x20000000)
        (__privileged_sram_end__ 0x20008000) 0x20000000 0x20008000 :=
  ⟨by decide, (region_bounds_inclusive 0x20000000 0x20008000 (by decide)).2.2.2⟩

/-- C7, as stated, fails for an empty region: with both linker symbols at
`0x20000000` the published end is `0x1FFFFFFF`, below the published start, in
each of the four descriptors. -/
theorem region_start_le_end_counterexample :
    (0x20000000 : Nat) ≤ 0x20000000 ∧
      ¬ (__privileged_functions_start__ 0x20000000 ≤ __privileged_functions_end__ 0x20000000) ∧
      ¬ (__syscalls_flash_start__ 0x20000000 ≤ __syscalls_flash_end__ 0x20000000) ∧
      ¬ (__unprivileged_flash_start__ 0x20000000 ≤ __unprivileged_flash_end__ 0x20000000) ∧
      ¬ (__privileged_sram_start__ 0x20000000 ≤ __privileged_sram_end__ 0x20000000) := by
  decide

/-- C7 (amended): for linker symbols with `raw_start <= raw_end`, each of the
four published descriptors has `start <= end` exactly when the region is not
empty (`raw_start < raw_end`) or `raw_end = 0`. -/
theorem region_start_le_end (raw_start raw_end : Nat) (hle : raw_start ≤ raw_end)
    (hend : raw_end < W32) :
    (__privileged_functions_start__ raw_start ≤ __privileged_functions_end__ raw_end ↔
        (raw_start < raw_end ∨ raw_end = 0)) ∧
      (__syscalls_flash_start__ raw_start ≤ __syscalls_flash_end__ raw_end ↔
        (raw_start < raw_end ∨ raw_end = 0)) ∧
      (__unprivileged_flash_start__ raw_start ≤ __unprivileged_flash_end__ raw_end ↔
        (raw_start < raw_end ∨ raw_end = 0)) ∧
      (__privileged_sram_start__ raw_start ≤ __privileged_sram_end__ raw_end ↔
        (raw_start < raw_end ∨ raw_end = 0)) :=
  ⟨start_le_end_iff raw_start raw_end hle hend, start_le_end_iff raw_start raw_end hle hend,
    start_le_end_iff raw_start raw_end hle hend, start_le_end_iff raw_start raw_end hle hend⟩

/-- Witness for C7 (amended): the non-empty region `0x20000000 .. 0x20008000`. -/
theorem region_start_le_end_witness :
    __privileged_sram_start__ 0x20000000 ≤ __privileged_sram_end__ 0x20008000 :=
  (region_start_le_end 0x20000000 0x20008000 (by decide) (by decide)).2.2.2.mpr
    (Or.inl (by decide))

/-! ## `MemManage_Handler` -/

/-- The test `lr & 4 == 0` reads bit 2 of `lr`. -/
theorem and_four_eq_zero_iff (lr : Nat) : lr &&& 4 = 0 ↔ lrBit2 lr = 0 := by
  have h := Nat.and_two_pow lr 2
  simp at h
  rw [h]
  simp [lrBit2, Nat.testBit, Nat.shiftRight_eq_div_pow]

/-- C5: for every `lr`, `msp` and `psp` at fault entry, `MemManage_Handler`
branches to `vHandleMemoryFault` with `r0` equal to `msp` when bit 2 of `lr`
is clear (`lr & 4 == 0`) and equal to `psp` when bit 2 of `lr` is set; neither
stack pointer is changed. -/
theorem MemManage_Handler_selects_stack (handler_address_const : Nat) (s : Cpu) :
    (MemManage_Handler handler_address_const s).r0 =
        (if s.lr &&& 4 = 0 then s.msp else s.psp) ∧
      (s.lr &&& 4 = 0 ↔ lrBit2 s.lr = 0) ∧
      (lrBit2 s.lr = 0 → (MemManage_Handler handler_address_const s).r0 = s.msp) ∧
      (lrBit2 s.lr = 1 → (MemManage_Handler handler_address_const s).r0 = s.psp) ∧
      (MemManage_Handler handler_address_const s).pc = handler_address_const ∧
      (MemManage_Handler handler_address_const s).msp = s.msp ∧
      (MemManage_Handler handler_address_const s).psp = s.psp := by
  have hiff := and_four_eq_zero_iff s.lr
  have hr0 : (MemManage_Handler handler_address_const s).r0 =
      (if s.lr &&& 4 = 0 then s.msp else s.psp) := by
    unfold MemManage_Handler bx_r1 ldr_r1_handler_address_const mrsne_r0_psp mrseq_r0_msp
      tst_lr_4
    by_cases h : s.lr &&& 4 = 0 <;> simp [h]
  have hrest : (MemManage_Handler handler_address_const s).pc = handler_address_const ∧
      (MemManage_Handler handler_address_const s).msp = s.msp ∧
      (MemManage_Handler handler_address_const s).psp = s.psp := by
    unfold MemManage_Handler bx_r1 ldr_r1_handler_address_const mrsne_r0_psp mrseq_r0_msp
      tst_lr_4
    by_cases h : s.lr &&& 4 = 0 <;> simp [h]
  refine ⟨hr0, hiff, ?_, ?_, hrest⟩
  · intro h0
    rw [hr0, if_pos (hiff.mpr h0)]
  · intro h1
    have hne : ¬ (s.lr &&& 4 = 0) := by
      intro h
      have := hiff.mp h
      omega
    rw [hr0, if_neg hne]

/-! ## Static memory hooks -/

/-- C6: `vApplicationGetIdleTaskMemory` writes all three outputs and reports
`configMINIMAL_STACK_SIZE`, the length in words of the idle stack array it
hands out; `vApplicationGetTimerTaskMemory` writes all three outputs and
reports `configTIMER_TASK_STACK_DEPTH`, the length in words of the timer stack
array it hands out.  Both are total functions. -/
theorem task_memory_hooks (cfg : FreeRTOSConfig) (out : TaskMemoryOut)
    (hidle : cfg.configMINIMAL_STACK_SIZE < W32)
    (htimer : cfg.configTIMER_TASK_STACK_DEPTH < W32) :
    (vApplicationGetIdleTaskMemory cfg out =
        ⟨some StaticObject.xIdleTaskTCB, some StaticObject.uxIdleTaskStack,
          some cfg.configMINIMAL_STACK_SIZE⟩ ∧
      stackArrayLength cfg StaticObject.uxIdleTaskStack =
        (vApplicationGetIdleTaskMemory cfg out).pulTaskStackSize) ∧
    (vApplicationGetTimerTaskMemory cfg out =
        ⟨some StaticObject.xTimerTaskTCB, some StaticObject.uxTimerTaskStack,
          some cfg.configTIMER_TASK_STACK_DEPTH⟩ ∧
      stackArrayLength cfg StaticObject.uxTimerTaskStack =
        (vApplicationGetTimerTaskMemory cfg out).pulTaskStackSize) := by
  unfold vApplicationGetIdleTaskMemory vApplicationGetTimerTaskMemory stackArrayLength
  simp [Nat.mod_eq_of_lt hidle, Nat.mod_eq_of_lt htimer]

/-- Witness for C6: stacks of 128 and 256 words, all outputs unwritten before
the calls. -/
theorem task_memory_hooks_witness :
    (vApplicationGetIdleTaskMemory ⟨128, 256⟩ ⟨none, none, none⟩).pulTaskStackSize = some 128 ∧
      (vApplicationGetTimerTaskMemory ⟨128, 256⟩ ⟨none, none, none⟩).pulTaskStackSize =
        some 256 :=
  ⟨congrArg TaskMemoryOut.pulTaskStackSize
      (task_memory_hooks ⟨128, 256⟩ ⟨none, none, none⟩ (by decide) (by decide)).1.1,
    congrArg TaskMemoryOut.pulTaskStackSize
      (task_memory_hooks ⟨128, 256⟩ ⟨none, none, none⟩ (by decide) (by decide)).2.1⟩

end MainNs
